import Mathlib

/-!
Shallow embedding of the vibe-ranking and recommendation core of the
`revel` repository (edge functions `rank-queue/index.ts` and
`get-recommendations/index.ts`).  JavaScript 64-bit floats are modelled
as real numbers; the JS sentinel `Infinity` used for the distance of a
song whose features cannot be resolved is modelled as `none` in
`Option ℝ` (a resolved, finite distance is `some d`), with the sort
comparator embedded case-by-case exactly as the source writes it.
External I/O (the queue store and the feature dataset) is modelled by
explicit parameters: reads become `Except String` values, the feature
dataset becomes an oracle `String → Option AudioFeatures` keyed, as in
the source, by the song title.
-/

namespace Revel

open scoped List

/-- Audio feature vector: the four fields of the `AudioFeatures`
interface shared by both edge functions. -/
structure AudioFeatures where
  tempo : ℝ
  energy : ℝ
  danceability : ℝ
  valence : ℝ

/-- Per-field weights, the `Weights` interface. -/
structure Weights where
  tempo : ℝ
  energy : ℝ
  danceability : ℝ
  valence : ℝ

attribute [ext] AudioFeatures Weights

/-- Embeds `computeCentroid` (identical in both edge functions):
each field is `features.reduce((sum, f) => sum + f.field, 0) / n`
with `n = features.length`.  The source has no emptiness guard: on an
empty list the JS code performs `0 / 0` and returns a record of `NaN`
fields rather than signalling an error (in this ℝ embedding `0 / 0`
denotes `0`; no claim depends on the numeric value at `n = 0`, only on
the fact that a value, not an error, is produced). -/
noncomputable def computeCentroid (features : List AudioFeatures) : AudioFeatures :=
  let n : ℝ := features.length
  { tempo := features.foldl (fun sum f => sum + f.tempo) 0 / n
    energy := features.foldl (fun sum f => sum + f.energy) 0 / n
    danceability := features.foldl (fun sum f => sum + f.danceability) 0 / n
    valence := features.foldl (fun sum f => sum + f.valence) 0 / n }

/-- Possible error of the spec-level centroid contract. -/
inductive CentroidError where
  | invalidInput
deriving DecidableEq

/-- The error channel of `computeCentroid` as the code has it: the
source function body is a single return statement with no conditional
and no `throw`, so every call (the empty list included) produces a
value. -/
noncomputable def computeCentroidE (features : List AudioFeatures) :
    Except CentroidError AudioFeatures :=
  Except.ok (computeCentroid features)

/-- Modelled from the spec (for comparison with the code, not taken
from the source): "arithmetic mean per field. Fails with `InvalidInput`
if the sequence is empty". -/
noncomputable def computeCentroidSpec (features : List AudioFeatures) :
    Except CentroidError AudioFeatures :=
  match features with
  | [] => Except.error CentroidError.invalidInput
  | _ => Except.ok (computeCentroid features)

/-- The default of the `epsilon` parameter of `computeDynamicWeights`
(`1e-6` in the source). -/
noncomputable def defaultEpsilon : ℝ := 1e-6

/-- Embeds `computeDynamicWeights` (identical in both edge functions):
all-`1.0` weights when fewer than 2 vectors are given; otherwise the
per-field population variance (the squared deviations from the
`computeCentroid` mean, summed by `reduce` and divided by `n`) and the
weight `1 / (variance + epsilon)`. -/
noncomputable def computeDynamicWeights (features : List AudioFeatures)
    (epsilon : ℝ := defaultEpsilon) : Weights :=
  let n : ℝ := features.length
  if features.length < 2 then
    { tempo := 1.0, energy := 1.0, danceability := 1.0, valence := 1.0 }
  else
    let mean := computeCentroid features
    let varTempo :=
      features.foldl (fun sum f => sum + (f.tempo - mean.tempo) ^ 2) 0 / n
    let varEnergy :=
      features.foldl (fun sum f => sum + (f.energy - mean.energy) ^ 2) 0 / n
    let varDanceability :=
      features.foldl
        (fun sum f => sum + (f.danceability - mean.danceability) ^ 2) 0 / n
    let varValence :=
      features.foldl (fun sum f => sum + (f.valence - mean.valence) ^ 2) 0 / n
    { tempo := 1 / (varTempo + epsilon)
      energy := 1 / (varEnergy + epsilon)
      danceability := 1 / (varDanceability + epsilon)
      valence := 1 / (varValence + epsilon) }

/-- Embeds `distance` (identical in both edge functions): the weighted
Euclidean distance
`sqrt(Σ_field weights.field * (song.field - centroid.field)^2)`. -/
noncomputable def distance (song centroid : AudioFeatures)
    (weights : Weights) : ℝ :=
  Real.sqrt
    (weights.tempo * (song.tempo - centroid.tempo) ^ 2 +
      weights.energy * (song.energy - centroid.energy) ^ 2 +
      weights.danceability * (song.danceability - centroid.danceability) ^ 2 +
      weights.valence * (song.valence - centroid.valence) ^ 2)

/-- Population variance of one field, written from the spec's words:
mean, then per-field squared deviations summed and divided by `n`. -/
noncomputable def popVariance (xs : List ℝ) : ℝ :=
  let mean := xs.sum / xs.length
  ((xs.map fun x => (x - mean) ^ 2).sum) / xs.length

/-- A left fold accumulating `g` over a list is its mapped sum. -/
theorem foldl_add_map (g : AudioFeatures → ℝ) (l : List AudioFeatures) :
    ∀ s : ℝ, l.foldl (fun sum f => sum + g f) s = s + (l.map g).sum := by
  induction l with
  | nil => intro s; simp
  | cons f t ih =>
      intro s
      simp only [List.foldl_cons, List.map_cons, List.sum_cons, ih]
      ring

/-- Each centroid field is the mapped sum over the field divided by the
length. -/
theorem computeCentroid_fields (features : List AudioFeatures) :
    computeCentroid features =
      { tempo := (features.map AudioFeatures.tempo).sum / features.length
        energy := (features.map AudioFeatures.energy).sum / features.length
        danceability :=
          (features.map AudioFeatures.danceability).sum / features.length
        valence :=
          (features.map AudioFeatures.valence).sum / features.length } := by
  simp [computeCentroid, foldl_add_map]

/-- One fetched queue row, as selected by the rank-queue handler
(`status = queued`, `pos` non-null, ordered ascending by `pos`).
These are the fields the ranking logic reads. -/
structure QueueEntry where
  id : String
  spotify_uri : String
  song_title : String
  song_artist : String
  pos : Int
deriving DecidableEq

/-- A pool entry after feature resolution, the `SongWithFeatures`
shape: the entry together with its resolved features (or `null`) and
its distance, where `none` models the JS sentinel `Infinity` assigned
when the features could not be resolved. -/
structure RankedSong where
  entry : QueueEntry
  features : Option AudioFeatures
  dist : Option ℝ

/-- Embeds step 2 of the rank-queue handler: `findIndex` locates the
first entry whose `spotify_uri` equals `currently_playing_uri`; when it
exists that entry is remembered as the currently-playing song and
`filter` removes every entry with that URI from the ranking pool. -/
def splitPlaying (queue : List QueueEntry) (playingUri : Option String) :
    Option QueueEntry × List QueueEntry :=
  match playingUri with
  | none => (none, queue)
  | some uri =>
      match queue.find? (fun s => s.spotify_uri == uri) with
      | none => (none, queue)
      | some playingSong =>
          (some playingSong, queue.filter (fun s => s.spotify_uri != uri))

/-- Embeds steps 7–8 of the rank-queue handler: each pool entry whose
title resolves gets its weighted `distance` to the centroid; an entry
that does not resolve gets `features: null` and the sentinel distance
(`Infinity` in the source, `none` here). The pool order is kept. -/
noncomputable def buildRanked (pool : List QueueEntry)
    (featuresOf : String → Option AudioFeatures)
    (centroid : AudioFeatures) (weights : Weights) : List RankedSong :=
  pool.map fun song =>
    match featuresOf song.song_title with
    | some features =>
        { entry := song, features := some features
          dist := some (distance features centroid weights) }
    | none => { entry := song, features := none, dist := none }

/-- The sort comparator of the rank-queue handler as a boolean
less-or-equal: the source comparator returns `0` when both distances
are `Infinity`, `1` when only `a`'s is, `-1` when only `b`'s is, and
`a.distance - b.distance` otherwise; `distLE a b` holds exactly when
that comparator is `≤ 0`. -/
noncomputable def distLE (a b : Option ℝ) : Bool :=
  match a, b with
  | none, none => true
  | none, some _ => false
  | some _, none => true
  | some x, some y => decide (x ≤ y)

/-- Comparator on ranked songs: compare their distances. -/
noncomputable def rankedLE (a b : RankedSong) : Bool :=
  distLE a.dist b.dist

/-- The stable ascending sort of the ranked pool.  JS `Array.sort` is
required to be stable, and `rankedLE` is a total preorder, so the
sorted result is the unique stable-sorted permutation; `List.mergeSort`
computes exactly that. -/
noncomputable def sortRanked (ranked : List RankedSong) : List RankedSong :=
  ranked.mergeSort rankedLE

/-- Embeds step 9 of the rank-queue handler: the loop that walks the
sorted list handing out consecutive positions from the running
`position` counter, as `(row id, new pos)` update pairs. -/
def assignFrom (position : ℕ) : List RankedSong → List (String × ℕ)
  | [] => []
  | s :: rest => (s.entry.id, position) :: assignFrom (position + 1) rest

/-- The full list of position writes of one successful rerank: the
pinned currently-playing entry (when present) is written `pos = 0` and
the counter continues at 1 over the sorted pool; with no pinned entry
the counter starts at 0. -/
def posWrites (pinned : Option QueueEntry) (sorted : List RankedSong) :
    List (String × ℕ) :=
  match pinned with
  | some playingSong => (playingSong.id, 0) :: assignFrom 1 sorted
  | none => assignFrom 0 sorted

/-- Outcome of one rerank invocation, mirroring the distinct `Response`
constructions of the rank-queue handler. -/
inductive RerankResult where
  | fetchError (msg : String)
  | queueEmpty
  | notEnoughSongs
  | referenceNotFound
  | ranked (pinned : Option QueueEntry) (centroid : AudioFeatures)
      (weights : Weights) (sorted : List RankedSong)
      (writes : List (String × ℕ))

/-- Embeds the rank-queue handler pipeline (steps 1–9) as a function of
the queue read, the currently-playing URI and the feature oracle:
empty-queue early return, currently-playing split, the `≤ 2` pool
guard, the reference subset `slice(0, min(2, poolSize - 1))`, reference
feature resolution dropping unresolved entries, centroid and dynamic
weights (default epsilon), distance assignment, stable sort, and the
position-update list. -/
noncomputable def rerank (queueRead : Except String (List QueueEntry))
    (playingUri : Option String)
    (featuresOf : String → Option AudioFeatures) : RerankResult :=
  match queueRead with
  | Except.error e => RerankResult.fetchError ("Failed to fetch queue: " ++ e)
  | Except.ok allQueuedSongs =>
    match allQueuedSongs with
    | [] => RerankResult.queueEmpty
    | _ =>
      let split := splitPlaying allQueuedSongs playingUri
      let currentlyPlayingSong := split.1
      let songsToRank := split.2
      if songsToRank.length ≤ 2 then RerankResult.notEnoughSongs
      else
        let referenceSongs := songsToRank.take (min 2 (songsToRank.length - 1))
        let referenceFeatures :=
          referenceSongs.filterMap fun song => featuresOf song.song_title
        match referenceFeatures with
        | [] => RerankResult.referenceNotFound
        | _ =>
          let centroid := computeCentroid referenceFeatures
          let weights := computeDynamicWeights referenceFeatures
          let sorted :=
            sortRanked (buildRanked songsToRank featuresOf centroid weights)
          RerankResult.ranked currentlyPlayingSong centroid weights sorted
            (posWrites currentlyPlayingSong sorted)

/-- The position writes carried by a rerank outcome: every non-ranked
outcome returns before any update is issued. -/
def rerankWrites : RerankResult → List (String × ℕ)
  | RerankResult.ranked _ _ _ _ writes => writes
  | _ => []

/-- Shape of the JSON body and HTTP status the rank-queue handler
responds with, restricted to the fields the claims are about. -/
structure RankResponse where
  status : ℕ
  success : Bool
  message : Option String
  error : Option String
deriving DecidableEq

/-- The response the rank-queue handler builds for each outcome: the
catch-all error path responds 500 with `success: false` and an `error`
field; every other path responds 200 (the final success body carries
counts rather than a `message`). -/
def rerankResponse : RerankResult → RankResponse
  | RerankResult.fetchError e =>
      { status := 500, success := false, message := none, error := some e }
  | RerankResult.queueEmpty =>
      { status := 200, success := true
        message := some "Queue is empty", error := none }
  | RerankResult.notEnoughSongs =>
      { status := 200, success := true
        message := some "Not enough songs to rank", error := none }
  | RerankResult.referenceNotFound =>
      { status := 200, success := false
        message := some "Reference songs not found in dataset", error := none }
  | RerankResult.ranked _ _ _ _ _ =>
      { status := 200, success := true, message := none, error := none }

/-- Applying the per-entry `update pos where id = _` writes to a store
mapping row ids to positions. -/
def applyWrites (store : String → Int) (writes : List (String × ℕ)) :
    String → Int :=
  writes.foldl (fun st w => fun i => if i = w.1 then (w.2 : Int) else st i)
    store

/-- One played-history row as selected by the get-recommendations
handler (`spotify_uri, song_title` of rows with `status = played`,
most recent first, limit 5). -/
structure PlayedSong where
  spotify_uri : String
  song_title : String
deriving DecidableEq

/-- One candidate row of the `popular_songs` table, with its numeric
fields already parsed (`parseFloat` in the source). -/
structure Candidate where
  id : String
  track_name : String
  artists : Option String
  spotify_uri : String
  tempo : ℝ
  energy : ℝ
  danceability : ℝ
  valence : ℝ

/-- The feature vector of a candidate row. -/
def Candidate.features (c : Candidate) : AudioFeatures :=
  { tempo := c.tempo, energy := c.energy
    danceability := c.danceability, valence := c.valence }

/-- A scored candidate, the `RankedSong` shape of the
get-recommendations handler (`artists` defaulted to "Unknown"). -/
structure RankedCandidate where
  id : String
  track_name : String
  artists : String
  spotify_uri : String
  tempo : ℝ
  energy : ℝ
  danceability : ℝ
  valence : ℝ
  dist : ℝ

/-- Outcome of one recommend invocation, mirroring the distinct
`Response` constructions of the get-recommendations handler. -/
inductive RecResult where
  | fetchError (msg : String)
  | noPlayedSongs
  | seedsNotFound
  | noCandidates
  | allExcluded
  | ok (recommendations : List RankedCandidate)

/-- Embeds the get-recommendations handler pipeline as a function of
the store reads, the feature oracle and the `limit` parameter
(default 5): played-history read (aborting on error, returning the
"no played songs" outcome when empty), seed feature resolution
dropping unresolved seeds, centroid and weights, the exclusion-set
read — whose failure is only logged (`console.warn`) and replaced by
`queuedSongs || []`, i.e. an empty exclusion set —, the candidate read
(aborting on error), the exclusion filter, scoring, the ascending sort
by distance, and the `slice(0, limit)` cut. -/
noncomputable def recommend (playedRead : Except String (List PlayedSong))
    (featuresOf : String → Option AudioFeatures)
    (exclusionRead : Except String (List String))
    (candidatesRead : Except String (List Candidate))
    (limit : ℕ := 5) : RecResult :=
  match playedRead with
  | Except.error e =>
      RecResult.fetchError ("Failed to fetch played songs: " ++ e)
  | Except.ok playedSongs =>
    match playedSongs with
    | [] => RecResult.noPlayedSongs
    | _ =>
      let seedFeatures :=
        playedSongs.filterMap fun song => featuresOf song.song_title
      match seedFeatures with
      | [] => RecResult.seedsNotFound
      | _ =>
        let centroid := computeCentroid seedFeatures
        let weights := computeDynamicWeights seedFeatures
        let excludeUris :=
          match exclusionRead with
          | Except.ok queuedSongs => queuedSongs
          | Except.error _ => []
        match candidatesRead with
        | Except.error e =>
            RecResult.fetchError ("Failed to fetch candidates: " ++ e)
        | Except.ok candidates =>
          match candidates with
          | [] => RecResult.noCandidates
          | _ =>
            let ranked :=
              (candidates.filter fun c =>
                  !(excludeUris.contains c.spotify_uri)).map fun c =>
                { id := c.id, track_name := c.track_name
                  artists := c.artists.getD "Unknown"
                  spotify_uri := c.spotify_uri
                  tempo := c.tempo, energy := c.energy
                  danceability := c.danceability, valence := c.valence
                  dist := distance c.features centroid weights }
            let sorted :=
              ranked.mergeSort fun a b => decide (a.dist ≤ b.dist)
            let recommendations := sorted.take limit
            match recommendations with
            | [] => RecResult.allExcluded
            | _ => RecResult.ok recommendations

/-- Shape of the JSON body and HTTP status the get-recommendations
handler responds with, restricted to the fields the claims are about
(`recommendations = none` models a body with no `recommendations` key
at all). -/
structure RecResponse where
  status : ℕ
  success : Bool
  message : Option String
  error : Option String
  recommendations : Option (List RankedCandidate)

/-- The response the get-recommendations handler builds for each
outcome.  Note that the zero-played-history path responds 200 with
`success: false`, a message, and no `recommendations` field, and that
only the catch-all path responds 500 with an `error` field. -/
def recResponse : RecResult → RecResponse
  | RecResult.fetchError e =>
      { status := 500, success := false, message := none, error := some e
        recommendations := none }
  | RecResult.noPlayedSongs =>
      { status := 200, success := false
        message := some "No played songs yet. Play some songs first!"
        error := none, recommendations := none }
  | RecResult.seedsNotFound =>
      { status := 200, success := false
        message := some "Seed songs not found in dataset"
        error := none, recommendations := none }
  | RecResult.noCandidates =>
      { status := 200, success := true
        message := some "No candidates found in popular_songs"
        error := none, recommendations := some [] }
  | RecResult.allExcluded =>
      { status := 200, success := true
        message := some "All popular songs are already in queue"
        error := none, recommendations := some [] }
  | RecResult.ok recommendations =>
      { status := 200, success := true, message := none, error := none
        recommendations := some recommendations }

/-- C2 (counterexample): applied to the empty sequence, the code's
`computeCentroid` returns a value (`Except.ok`), it does not fail: the
source body is a single return statement with no guard and no `throw`
(in JS the fields of the returned record are `NaN` from `0 / 0`).  The
spec-modelled contract `computeCentroidSpec` instead fails with
`InvalidInput` there, and the two disagree. -/
theorem centroid_empty_not_error :
    computeCentroidE ([] : List AudioFeatures) =
      Except.ok (computeCentroid []) ∧
    computeCentroidSpec ([] : List AudioFeatures) =
      Except.error CentroidError.invalidInput ∧
    computeCentroidE ([] : List AudioFeatures) ≠
      computeCentroidSpec ([] : List AudioFeatures) := by
  refine ⟨rfl, rfl, ?_⟩
  simp [computeCentroidE, computeCentroidSpec]

/-- C2 (amended): on any non-empty sequence `computeCentroid` returns
the exact per-field arithmetic mean, and `computeCentroid [v] = v`;
on the empty sequence, however, the code does not fail with an
`InvalidInput` error — it returns a value (a record of `NaN` fields in
the JS semantics), its error channel always being `Except.ok`. -/
theorem centroid_mean_amended (features : List AudioFeatures)
    (_hne : features ≠ []) :
    computeCentroid features =
      { tempo := (features.map AudioFeatures.tempo).sum / features.length
        energy := (features.map AudioFeatures.energy).sum / features.length
        danceability :=
          (features.map AudioFeatures.danceability).sum / features.length
        valence :=
          (features.map AudioFeatures.valence).sum / features.length } ∧
    (∀ v, computeCentroid [v] = v) ∧
    (∀ fs : List AudioFeatures,
      computeCentroidE fs = Except.ok (computeCentroid fs)) := by
  refine ⟨computeCentroid_fields features, fun v => ?_, fun fs => rfl⟩
  ext <;> simp [computeCentroid]

/-- Witness for C2's amended theorem at a concrete two-vector input. -/
theorem centroid_mean_amended_witness :
    computeCentroid [⟨2, 4, 6, 8⟩, ⟨4, 8, 10, 12⟩] =
      { tempo := 3, energy := 6, danceability := 8, valence := 10 } := by
  have h :=
    (centroid_mean_amended [⟨2, 4, 6, 8⟩, ⟨4, 8, 10, 12⟩] (by simp)).1
  rw [h]
  ext <;> norm_num

/-- C5: `computeDynamicWeights` returns uniform `1.0` weights on fewer
than 2 vectors regardless of content; on `n ≥ 2` vectors each field's
weight is `1 / (population variance + epsilon)` where the variance
divides by `n`, and the `epsilon` default is `1e-6`. -/
theorem computeDynamicWeights_spec (features : List AudioFeatures)
    (epsilon : ℝ) :
    (features.length < 2 →
      computeDynamicWeights features epsilon =
        { tempo := 1.0, energy := 1.0, danceability := 1.0
          valence := 1.0 }) ∧
    (2 ≤ features.length →
      computeDynamicWeights features epsilon =
        { tempo :=
            1 / (popVariance (features.map AudioFeatures.tempo) + epsilon)
          energy :=
            1 / (popVariance (features.map AudioFeatures.energy) + epsilon)
          danceability :=
            1 /
              (popVariance (features.map AudioFeatures.danceability) +
                epsilon)
          valence :=
            1 /
              (popVariance (features.map AudioFeatures.valence) +
                epsilon) }) ∧
    defaultEpsilon = 1 / 1000000 := by
  refine ⟨fun h => by simp [computeDynamicWeights, h], fun h => ?_,
    by norm_num [defaultEpsilon]⟩
  have hn : ¬ features.length < 2 := by omega
  simp only [computeDynamicWeights, hn, if_false]
  have hmean := computeCentroid_fields features
  ext <;>
    simp [popVariance, foldl_add_map, hmean, List.map_map, Function.comp_def]

/-- Witness for C5 at a one-vector and a two-vector input. -/
theorem computeDynamicWeights_spec_witness :
    computeDynamicWeights [⟨4, 4, 4, 4⟩] 1 =
      { tempo := 1.0, energy := 1.0, danceability := 1.0
        valence := 1.0 } ∧
    computeDynamicWeights [⟨0, 0, 0, 0⟩, ⟨2, 2, 2, 2⟩] 1 =
      { tempo := 1 / (popVariance [0, 2] + 1)
        energy := 1 / (popVariance [0, 2] + 1)
        danceability := 1 / (popVariance [0, 2] + 1)
        valence := 1 / (popVariance [0, 2] + 1) } := by
  constructor
  · exact (computeDynamicWeights_spec [⟨4, 4, 4, 4⟩] 1).1 (by decide)
  · have h :=
      (computeDynamicWeights_spec [⟨0, 0, 0, 0⟩, ⟨2, 2, 2, 2⟩] 1).2.1
        (by decide)
    simpa using h

/-- C6: `distance` is the weighted Euclidean distance formula, it is
never negative, it is `0` on equal point and centroid for every weight
vector, and for all-positive weights it is `0` iff the point equals
the centroid on every field. -/
theorem distance_spec (p c : AudioFeatures) (w : Weights)
    (hw : 0 < w.tempo ∧ 0 < w.energy ∧ 0 < w.danceability ∧
      0 < w.valence) :
    distance p c w =
      Real.sqrt
        (w.tempo * (p.tempo - c.tempo) ^ 2 +
          w.energy * (p.energy - c.energy) ^ 2 +
          w.danceability * (p.danceability - c.danceability) ^ 2 +
          w.valence * (p.valence - c.valence) ^ 2) ∧
    0 ≤ distance p c w ∧
    (∀ v W, distance v v W = 0) ∧
    (distance p c w = 0 ↔ p = c) := by
  obtain ⟨hwt, hwe, hwd, hwv⟩ := hw
  have hzero : ∀ (v : AudioFeatures) (W : Weights), distance v v W = 0 := by
    intro v W
    simp [distance]
  refine ⟨rfl, Real.sqrt_nonneg _, hzero, ?_, ?_⟩
  · intro h0
    have t1 : 0 ≤ w.tempo * (p.tempo - c.tempo) ^ 2 :=
      mul_nonneg hwt.le (sq_nonneg _)
    have t2 : 0 ≤ w.energy * (p.energy - c.energy) ^ 2 :=
      mul_nonneg hwe.le (sq_nonneg _)
    have t3 : 0 ≤ w.danceability * (p.danceability - c.danceability) ^ 2 :=
      mul_nonneg hwd.le (sq_nonneg _)
    have t4 : 0 ≤ w.valence * (p.valence - c.valence) ^ 2 :=
      mul_nonneg hwv.le (sq_nonneg _)
    have hsum :
        w.tempo * (p.tempo - c.tempo) ^ 2 +
          w.energy * (p.energy - c.energy) ^ 2 +
          w.danceability * (p.danceability - c.danceability) ^ 2 +
          w.valence * (p.valence - c.valence) ^ 2 ≤ 0 :=
      Real.sqrt_eq_zero'.mp h0
    have e1 : (p.tempo - c.tempo) ^ 2 = 0 := by
      have : w.tempo * (p.tempo - c.tempo) ^ 2 = 0 := by linarith
      rcases mul_eq_zero.mp this with h | h
      · exact absurd h hwt.ne'
      · exact h
    have e2 : (p.energy - c.energy) ^ 2 = 0 := by
      have : w.energy * (p.energy - c.energy) ^ 2 = 0 := by linarith
      rcases mul_eq_zero.mp this with h | h
      · exact absurd h hwe.ne'
      · exact h
    have e3 : (p.danceability - c.danceability) ^ 2 = 0 := by
      have : w.danceability * (p.danceability - c.danceability) ^ 2 = 0 :=
        by linarith
      rcases mul_eq_zero.mp this with h | h
      · exact absurd h hwd.ne'
      · exact h
    have e4 : (p.valence - c.valence) ^ 2 = 0 := by
      have : w.valence * (p.valence - c.valence) ^ 2 = 0 := by linarith
      rcases mul_eq_zero.mp this with h | h
      · exact absurd h hwv.ne'
      · exact h
    ext
    · linarith [sub_eq_zero.mp (sq_eq_zero_iff.mp e1)]
    · linarith [sub_eq_zero.mp (sq_eq_zero_iff.mp e2)]
    · linarith [sub_eq_zero.mp (sq_eq_zero_iff.mp e3)]
    · linarith [sub_eq_zero.mp (sq_eq_zero_iff.mp e4)]
  · intro h
    subst h
    exact hzero p w

/-- Witness for C6 at concrete vectors and all-one weights. -/
theorem distance_spec_witness :
    0 ≤ distance ⟨1, 2, 3, 4⟩ ⟨4, 3, 2, 1⟩ ⟨1, 1, 1, 1⟩ ∧
    distance ⟨1, 2, 3, 4⟩ ⟨1, 2, 3, 4⟩ ⟨1, 1, 1, 1⟩ = 0 := by
  have h :=
    distance_spec ⟨1, 2, 3, 4⟩ ⟨4, 3, 2, 1⟩ ⟨1, 1, 1, 1⟩
      (by norm_num)
  exact ⟨h.2.1, h.2.2.1 ⟨1, 2, 3, 4⟩ ⟨1, 1, 1, 1⟩⟩

/-- The comparator relation is transitive. -/
theorem distLE_trans (a b c : Option ℝ) (hab : distLE a b = true)
    (hbc : distLE b c = true) : distLE a c = true := by
  cases a <;> cases b <;> cases c <;>
    simp_all [distLE] <;> exact le_trans hab hbc

/-- The comparator relation is total. -/
theorem distLE_total (a b : Option ℝ) :
    (distLE a b || distLE b a) = true := by
  cases a <;> cases b <;> simp [distLE] <;> exact le_total _ _

/-- Transitivity of the ranked-song comparator. -/
theorem rankedLE_trans (a b c : RankedSong) (hab : rankedLE a b)
    (hbc : rankedLE b c) : rankedLE a c :=
  distLE_trans a.dist b.dist c.dist hab hbc

/-- Totality of the ranked-song comparator. -/
theorem rankedLE_total (a b : RankedSong) :
    (rankedLE a b || rankedLE b a) = true :=
  distLE_total a.dist b.dist

/-- The sorted pool is pairwise ordered by the comparator. -/
theorem sortRanked_pairwise (l : List RankedSong) :
    (sortRanked l).Pairwise (fun a b => rankedLE a b = true) :=
  List.sorted_mergeSort rankedLE_trans rankedLE_total l

/-- The sorted pool is a permutation of the unsorted pool. -/
theorem sortRanked_perm (l : List RankedSong) : sortRanked l ~ l :=
  List.mergeSort_perm l rankedLE

/-- Membership is preserved by the sort. -/
theorem sortRanked_mem (l : List RankedSong) (r : RankedSong) :
    r ∈ sortRanked l ↔ r ∈ l :=
  List.mem_mergeSort

/-- Stability of the sort: a comparator-sorted sublist of the input is
still a sublist of the output. -/
theorem sortRanked_sublist (l c : List RankedSong)
    (hc : c.Pairwise (fun a b => rankedLE a b = true)) (hs : c <+ l) :
    c <+ sortRanked l :=
  List.sublist_mergeSort rankedLE_trans rankedLE_total hc hs

/-- Each element of the built pool keeps its entry, records the
oracle's features and gets the weighted distance to the centroid when
resolved, the sentinel otherwise. -/
theorem buildRanked_mem (pool : List QueueEntry)
    (fo : String → Option AudioFeatures) (c : AudioFeatures) (w : Weights)
    (r : RankedSong) (h : r ∈ buildRanked pool fo c w) :
    r.entry ∈ pool ∧ r.features = fo r.entry.song_title ∧
    r.dist = (fo r.entry.song_title).map fun f => distance f c w := by
  rcases List.mem_map.mp h with ⟨song, hs, rfl⟩
  cases hfo : fo song.song_title <;> simp [buildRanked, hfo, hs]

/-- The id column of the position-assignment loop. -/
theorem assignFrom_map_fst (l : List RankedSong) :
    ∀ start, (assignFrom start l).map Prod.fst =
      l.map fun r => r.entry.id := by
  induction l with
  | nil => intro start; rfl
  | cons r t ih => intro start; simp [assignFrom, ih]

/-- The position column of the position-assignment loop is the
consecutive range from the starting counter. -/
theorem assignFrom_map_snd (l : List RankedSong) :
    ∀ start, (assignFrom start l).map Prod.snd =
      List.range' start l.length := by
  induction l with
  | nil => intro start; rfl
  | cons r t ih => intro start; simp [assignFrom, ih, List.range'_succ]

/-- The assignment loop writes one pair per song. -/
theorem assignFrom_length (l : List RankedSong) :
    ∀ start, (assignFrom start l).length = l.length := by
  induction l with
  | nil => intro start; rfl
  | cons r t ih => intro start; simp [assignFrom, ih]

/-- The position column of a full write set is `0, 1, 2, ...`. -/
theorem posWrites_map_snd (pinned : Option QueueEntry)
    (sorted : List RankedSong) :
    (posWrites pinned sorted).map Prod.snd =
      List.range (posWrites pinned sorted).length := by
  cases pinned with
  | none =>
      simp [posWrites, assignFrom_map_snd, assignFrom_length,
        List.range_eq_range']
  | some p =>
      simp [posWrites, assignFrom_map_snd, assignFrom_length,
        List.range_eq_range', List.range'_succ]

/-- The id column of a full write set: the pinned entry first (when
present), then the sorted pool order. -/
theorem posWrites_map_fst (pinned : Option QueueEntry)
    (sorted : List RankedSong) :
    (posWrites pinned sorted).map Prod.fst =
      (pinned.map QueueEntry.id).toList ++
        sorted.map (fun r => r.entry.id) := by
  cases pinned <;> simp [posWrites, assignFrom_map_fst]

/-- A row id that appears in no write pair keeps its stored value. -/
theorem applyWrites_not_mem (writes : List (String × ℕ)) :
    ∀ (store : String → Int) (i : String), i ∉ writes.map Prod.fst →
      applyWrites store writes i = store i := by
  induction writes with
  | nil => intro store i _; rfl
  | cons wp t ih =>
      intro store i hi
      simp only [List.map_cons, List.mem_cons] at hi
      push_neg at hi
      have step :
          applyWrites store (wp :: t) i =
            applyWrites
              (fun j => if j = wp.1 then (wp.2 : Int) else store j) t i :=
        rfl
      rw [step, ih _ i hi.2]
      simp [hi.1]

/-- Inversion of a successful rerank: the ranked outcome's pieces are
the currently-playing split of the fetched queue, the stable sort of
the built pool, and the position writes derived from them. -/
theorem rerank_ranked_inv (q : List QueueEntry) (uri : Option String)
    (fo : String → Option AudioFeatures) (p : Option QueueEntry)
    (c : AudioFeatures) (w : Weights) (s : List RankedSong)
    (wr : List (String × ℕ))
    (h : rerank (Except.ok q) uri fo = RerankResult.ranked p c w s wr) :
    p = (splitPlaying q uri).1 ∧
    s = sortRanked (buildRanked (splitPlaying q uri).2 fo c w) ∧
    wr = posWrites p s := by
  cases q with
  | nil => simp [rerank] at h
  | cons a t =>
      by_cases hle : (splitPlaying (a :: t) uri).2.length ≤ 2
      · simp [rerank, hle] at h
      · simp only [rerank, hle, if_false] at h
        rcases hrf :
            ((splitPlaying (a :: t) uri).2.take
                (min 2 ((splitPlaying (a :: t) uri).2.length - 1))).filterMap
              (fun song => fo song.song_title) with _ | ⟨f0, ft⟩
        · rw [hrf] at h
          simp at h
        · rw [hrf] at h
          simp only [RerankResult.ranked.injEq] at h
          obtain ⟨hp, hc, hw, hs, hwr⟩ := h
          subst hp hc hw hs hwr
          exact ⟨rfl, rfl, rfl⟩

/-- C4: when the fetched queue is non-empty but, after removing the
currently-playing entry, at most 2 songs remain in the ranking pool,
rerank issues no position write (the stored queue is unchanged) and
reports the non-error 200 status "Not enough songs to rank". -/
theorem rerank_not_enough (q : List QueueEntry) (uri : Option String)
    (fo : String → Option AudioFeatures) (hne : q ≠ [])
    (hle : (splitPlaying q uri).2.length ≤ 2) :
    rerank (Except.ok q) uri fo = RerankResult.notEnoughSongs ∧
    rerankWrites (rerank (Except.ok q) uri fo) = [] ∧
    (∀ store,
      applyWrites store (rerankWrites (rerank (Except.ok q) uri fo)) =
        store) ∧
    rerankResponse (rerank (Except.ok q) uri fo) =
      { status := 200, success := true
        message := some "Not enough songs to rank", error := none } := by
  have hr : rerank (Except.ok q) uri fo = RerankResult.notEnoughSongs := by
    cases q with
    | nil => exact absurd rfl hne
    | cons a t => simp [rerank, hle]
  exact ⟨hr, by rw [hr]; rfl, fun store => by rw [hr]; rfl, by rw [hr]; rfl⟩

/-- Witness for C4: a two-song queue with no currently-playing URI. -/
theorem rerank_not_enough_witness :
    rerank
        (Except.ok
          [⟨"id1", "uri1", "t1", "a1", 0⟩, ⟨"id2", "uri2", "t2", "a2", 1⟩])
        none (fun _ => none) =
      RerankResult.notEnoughSongs :=
  (rerank_not_enough
      [⟨"id1", "uri1", "t1", "a1", 0⟩, ⟨"id2", "uri2", "t2", "a2", 1⟩]
      none (fun _ => none) (by decide) (by decide)).1

/-- C8 (counterexample): with zero played-history rows the handler
responds with `success: false` and with no `recommendations` field at
all, so the outcome is not "an empty result" and it is flagged with
the same failure bit the error responses use. -/
theorem recommend_no_played_counterexample :
    (recResponse
        (recommend (Except.ok []) (fun _ => none) (Except.ok [])
          (Except.ok []))).success = false ∧
    (recResponse
        (recommend (Except.ok []) (fun _ => none) (Except.ok [])
          (Except.ok []))).recommendations = none := by
  exact ⟨rfl, rfl⟩

/-- C8 (amended): recommend called with zero played-history entries
returns the "no played songs" outcome: HTTP 200 (not a 4xx/5xx) with
the message "No played songs yet. Play some songs first!" and no
`error` field — but the body carries `success: false` and omits the
`recommendations` list entirely rather than carrying an empty one. -/
theorem recommend_no_played_amended (fo : String → Option AudioFeatures)
    (ex : Except String (List String))
    (cr : Except String (List Candidate)) (limit : ℕ) :
    recommend (Except.ok []) fo ex cr limit = RecResult.noPlayedSongs ∧
    recResponse RecResult.noPlayedSongs =
      { status := 200, success := false
        message := some "No played songs yet. Play some songs first!"
        error := none, recommendations := none } :=
  ⟨rfl, rfl⟩

/-- C9 (amended): the queue read of rerank, the played-songs read and
the candidate-pool read of recommend each abort the whole operation
with a 500 error response when they fail; the exclusion-set read is
the exception: its failure is only logged and the pass continues
exactly as if the exclusion set had been read as empty. -/
theorem whole_batch_read_failures (e : String) (uri : Option String)
    (fo : String → Option AudioFeatures)
    (ex : Except String (List String))
    (cr : Except String (List Candidate))
    (pr : Except String (List PlayedSong)) (limit : ℕ)
    (ps : List PlayedSong) (hps : ps ≠ [])
    (hseeds : ps.filterMap (fun s => fo s.song_title) ≠ []) :
    rerankResponse (rerank (Except.error e) uri fo) =
      { status := 500, success := false, message := none
        error := some ("Failed to fetch queue: " ++ e) } ∧
    recResponse (recommend (Except.error e) fo ex cr limit) =
      { status := 500, success := false, message := none
        error := some ("Failed to fetch played songs: " ++ e)
        recommendations := none } ∧
    recommend (Except.ok ps) fo ex (Except.error e) limit =
      RecResult.fetchError ("Failed to fetch candidates: " ++ e) ∧
    recommend pr fo (Except.error e) cr limit =
      recommend pr fo (Except.ok []) cr limit := by
  refine ⟨rfl, rfl, ?_, ?_⟩
  · cases ps with
    | nil => exact absurd rfl hps
    | cons p pt =>
        rcases hsf : (p :: pt).filterMap (fun s => fo s.song_title) with
          _ | ⟨f0, ft⟩
        · exact absurd hsf hseeds
        · simp [recommend, hsf]
  · cases pr with
    | error e2 => rfl
    | ok ps2 =>
        cases ps2 with
        | nil => rfl
        | cons p pt =>
            rcases hsf : (p :: pt).filterMap (fun s => fo s.song_title) with
              _ | ⟨f0, ft⟩
            · simp [recommend, hsf]
            · cases cr with
              | error e2 => simp [recommend, hsf]
              | ok cands =>
                  cases cands with
                  | nil => simp [recommend, hsf]
                  | cons c ct => simp [recommend, hsf]

/-- Witness for C9's amended theorem at concrete inputs. -/
theorem whole_batch_read_failures_witness :
    recommend (Except.ok [⟨"uri:p1", "seed"⟩])
        (fun _ => some ⟨120, 1 / 2, 1 / 2, 1 / 2⟩) (Except.ok [])
        (Except.error "boom") 5 =
      RecResult.fetchError ("Failed to fetch candidates: " ++ "boom") :=
  (whole_batch_read_failures "boom" none
      (fun _ => some ⟨120, 1 / 2, 1 / 2, 1 / 2⟩) (Except.ok [])
      (Except.ok []) (Except.ok []) 5 [⟨"uri:p1", "seed"⟩] (by simp)
      (by simp)).2.2.1

/-- C9 (counterexample): a run of recommend in which the exclusion-set
read fails (`Except.error "boom"`) and yet the operation is not
aborted: the played read succeeds, the seed resolves, the single
candidate is scored, and the handler responds 200 / `success: true`
with no error field — it continued the pass with an empty exclusion
set instead of reporting the failure. -/
theorem recommend_exclusion_error_continues :
    (recResponse
        (recommend (Except.ok [⟨"uri:p1", "seed"⟩])
          (fun _ => some ⟨120, 1 / 2, 1 / 2, 1 / 2⟩)
          (Except.error "boom")
          (Except.ok
            [⟨"c1", "cand", none, "uri:c1", 120, 1 / 2, 1 / 2,
              1 / 2⟩]) 5)).status = 200 ∧
    (recResponse
        (recommend (Except.ok [⟨"uri:p1", "seed"⟩])
          (fun _ => some ⟨120, 1 / 2, 1 / 2, 1 / 2⟩)
          (Except.error "boom")
          (Except.ok
            [⟨"c1", "cand", none, "uri:c1", 120, 1 / 2, 1 / 2,
              1 / 2⟩]) 5)).success = true ∧
    (recResponse
        (recommend (Except.ok [⟨"uri:p1", "seed"⟩])
          (fun _ => some ⟨120, 1 / 2, 1 / 2, 1 / 2⟩)
          (Except.error "boom")
          (Except.ok
            [⟨"c1", "cand", none, "uri:c1", 120, 1 / 2, 1 / 2,
              1 / 2⟩]) 5)).error = none := by
  refine ⟨?_, ?_, ?_⟩ <;>
    simp [recommend, recResponse, List.mergeSort_singleton]

/-- C1: after a successful rerank, the pinned currently-playing entry
(when the URI matched) receives `pos = 0` regardless of its distance,
the position column of the writes is exactly `0, 1, 2, ...`, the id
column is the pinned id followed by the sorted pool's ids, the sorted
pool is pairwise ascending under the distance comparator, and every
sorted element's distance is its weighted distance to the centroid
(with the sentinel for unresolved features). -/
theorem rerank_positions (q : List QueueEntry) (uri : Option String)
    (fo : String → Option AudioFeatures) (p : Option QueueEntry)
    (c : AudioFeatures) (w : Weights) (s : List RankedSong)
    (wr : List (String × ℕ))
    (h : rerank (Except.ok q) uri fo = RerankResult.ranked p c w s wr) :
    (∀ pe, p = some pe → wr.head? = some (pe.id, 0)) ∧
    wr.map Prod.snd = List.range wr.length ∧
    wr.map Prod.fst =
      (p.map QueueEntry.id).toList ++ s.map (fun r => r.entry.id) ∧
    s.Pairwise (fun a b => rankedLE a b = true) ∧
    (∀ r ∈ s,
      r.dist = (fo r.entry.song_title).map fun f => distance f c w) := by
  obtain ⟨hp, hs, hwr⟩ := rerank_ranked_inv q uri fo p c w s wr h
  refine ⟨?_, ?_, ?_, ?_, ?_⟩
  · intro pe hpe
    rw [hwr, hpe]
    rfl
  · rw [hwr]
    exact posWrites_map_snd p s
  · rw [hwr]
    exact posWrites_map_fst p s
  · rw [hs]
    exact sortRanked_pairwise _
  · intro r hr
    rw [hs] at hr
    have hmem := (sortRanked_mem _ r).mp hr
    exact (buildRanked_mem _ fo c w r hmem).2.2

/-- C3: after a successful rerank, every pool entry whose features did
not resolve carries the sentinel distance; in the sorted pool no
sentinel entry precedes a resolved one (so sentinels sort strictly
last); the sentinel entries of the sorted pool are exactly the
sentinel entries of the pre-sort pool in their prior relative order;
and any two resolved entries with equal distances keep their prior
relative order. -/
theorem rerank_unresolved_stable (q : List QueueEntry)
    (uri : Option String) (fo : String → Option AudioFeatures)
    (p : Option QueueEntry) (c : AudioFeatures) (w : Weights)
    (s : List RankedSong) (wr : List (String × ℕ))
    (h : rerank (Except.ok q) uri fo = RerankResult.ranked p c w s wr) :
    (∀ r ∈ buildRanked (splitPlaying q uri).2 fo c w,
      fo r.entry.song_title = none → r.dist = none) ∧
    s.Pairwise (fun a b => a.dist = none → b.dist = none) ∧
    s.filter (fun r => r.dist.isNone) =
      (buildRanked (splitPlaying q uri).2 fo c w).filter
        (fun r => r.dist.isNone) ∧
    (∀ a b x, a.dist = some x → b.dist = some x →
      [a, b] <+ buildRanked (splitPlaying q uri).2 fo c w →
      [a, b] <+ s) := by
  obtain ⟨hp, hs, hwr⟩ := rerank_ranked_inv q uri fo p c w s wr h
  set pool := buildRanked (splitPlaying q uri).2 fo c w with hpool
  refine ⟨?_, ?_, ?_, ?_⟩
  · intro r hr hfo
    rw [(buildRanked_mem _ fo c w r hr).2.2, hfo]
    rfl
  · rw [hs]
    refine (sortRanked_pairwise pool).imp ?_
    intro a b hab ha
    cases hb : b.dist with
    | none => rfl
    | some y =>
        rw [rankedLE, ha, hb] at hab
        simp [distLE] at hab
  · have hallnone :
        ∀ r ∈ pool.filter (fun r => r.dist.isNone), r.dist = none := by
      intro r hr
      have := (List.mem_filter.mp hr).2
      simpa [Option.isNone_iff_eq_none] using this
    have hcpw :
        (pool.filter (fun r => r.dist.isNone)).Pairwise
          (fun a b => rankedLE a b = true) := by
      rw [List.pairwise_iff_forall_sublist]
      intro a b hab
      have hmem := hab.subset
      have ha := hallnone a (hmem (by simp))
      have hb := hallnone b (hmem (by simp))
      rw [rankedLE, ha, hb]
      rfl
    have hsub : pool.filter (fun r => r.dist.isNone) <+ sortRanked pool :=
      sortRanked_sublist pool _ hcpw (List.filter_sublist pool)
    have hsub2 :
        pool.filter (fun r => r.dist.isNone) <+
          (sortRanked pool).filter (fun r => r.dist.isNone) := by
      have := hsub.filter (fun r => r.dist.isNone)
      rwa [List.filter_eq_self.mpr
        (fun a ha => (List.mem_filter.mp ha).2)] at this
    have hperm :
        (sortRanked pool).filter (fun r => r.dist.isNone) ~
          pool.filter (fun r => r.dist.isNone) :=
      (sortRanked_perm pool).filter _
    rw [hs]
    exact (hsub2.eq_of_length hperm.length_eq.symm).symm
  · intro a b x ha hb hsubl
    rw [hs]
    refine List.pair_sublist_mergeSort rankedLE_trans rankedLE_total
      ?_ hsubl
    rw [rankedLE, ha, hb]
    simp [distLE]

/-- C10: when the currently-playing URI matches several queued entries
(duplicate URIs with pairwise distinct row ids), a successful rerank
pins the first match — the head write is `(first match id, 0)` — while
every other matching entry is removed from the pool and receives no
write at all, so its stored position is left unchanged. -/
theorem rerank_duplicate_playing (q : List QueueEntry) (u : String)
    (fo : String → Option AudioFeatures) (p0 : QueueEntry)
    (pv : Option QueueEntry) (c : AudioFeatures) (w : Weights)
    (s : List RankedSong) (wr : List (String × ℕ))
    (hfind : q.find? (fun e => e.spotify_uri == u) = some p0)
    (h : rerank (Except.ok q) (some u) fo =
      RerankResult.ranked pv c w s wr)
    (hnodup : (q.map QueueEntry.id).Nodup) (e : QueueEntry) (he : e ∈ q)
    (heuri : e.spotify_uri = u) (hene : e.id ≠ p0.id) :
    pv = some p0 ∧
    wr.head? = some (p0.id, 0) ∧
    e.id ∉ wr.map Prod.fst ∧
    (∀ store, applyWrites store wr e.id = store e.id) := by
  obtain ⟨hp, hs, hwr⟩ := rerank_ranked_inv q (some u) fo pv c w s wr h
  have hpv : pv = some p0 := by
    rw [hp]
    simp [splitPlaying, hfind]
  have hnotmem : e.id ∉ wr.map Prod.fst := by
    rw [hwr, posWrites_map_fst, hpv]
    intro hmem0
    rcases List.mem_append.mp hmem0 with hl | hmem
    · exact hene (by simpa using hl)
    · rcases List.mem_map.mp hmem with ⟨r, hr, hrid⟩
      rw [hs] at hr
      have hrp := (sortRanked_mem _ r).mp hr
      have hentry := (buildRanked_mem _ fo c w r hrp).1
      have hpool : (splitPlaying q (some u)).2 =
          q.filter (fun s => s.spotify_uri != u) := by
        simp [splitPlaying, hfind]
      rw [hpool] at hentry
      have hq := List.mem_filter.mp hentry
      have hre : r.entry = e :=
        List.inj_on_of_nodup_map hnodup hq.1 he hrid
      rw [hre, heuri] at hq
      simp at hq
  refine ⟨hpv, ?_, hnotmem, fun store => applyWrites_not_mem wr store e.id hnotmem⟩
  rw [hwr, hpv]
  rfl

/-- C7: for any candidate pool and any outcome, when the exclusion-set
read succeeds recommend never returns a recommendation whose URI is in
the read exclusion set (the session's queued and played URIs): every
such candidate is filtered out before scoring. -/
theorem recommend_excludes_seen (pr : Except String (List PlayedSong))
    (fo : String → Option AudioFeatures) (exUris : List String)
    (cr : Except String (List Candidate)) (limit : ℕ)
    (r : RankedCandidate)
    (hr : r ∈ (recResponse
        (recommend pr fo (Except.ok exUris) cr limit)).recommendations.getD
        []) :
    r.spotify_uri ∉ exUris := by
  cases pr with
  | error e => simp [recommend, recResponse] at hr
  | ok ps =>
    cases ps with
    | nil => simp [recommend, recResponse] at hr
    | cons p pt =>
      rcases hsf : (p :: pt).filterMap (fun song => fo song.song_title)
        with _ | ⟨f0, ft⟩
      · simp [recommend, hsf, recResponse] at hr
      · cases cr with
        | error e => simp [recommend, hsf, recResponse] at hr
        | ok cands =>
          cases cands with
          | nil => simp [recommend, hsf, recResponse] at hr
          | cons c0 ct =>
            simp only [recommend, hsf] at hr
            set scored :=
              ((c0 :: ct).filter fun cd =>
                  !(exUris.contains cd.spotify_uri)).map
                (fun cd =>
                  { id := cd.id, track_name := cd.track_name
                    artists := cd.artists.getD "Unknown"
                    spotify_uri := cd.spotify_uri
                    tempo := cd.tempo, energy := cd.energy
                    danceability := cd.danceability
                    valence := cd.valence
                    dist :=
                      distance cd.features
                        (computeCentroid (f0 :: ft))
                        (computeDynamicWeights (f0 :: ft))
                      : RankedCandidate }) with hscored
            rcases htake :
                (scored.mergeSort fun a b => decide (a.dist ≤ b.dist)).take
                  limit with _ | ⟨r0, rt⟩
            · rw [htake] at hr
              simp [recResponse] at hr
            · rw [htake] at hr
              simp only [recResponse, Option.getD_some] at hr
              rw [← htake] at hr
              have hr2 := List.mem_of_mem_take hr
              have hr3 := List.mem_mergeSort.mp hr2
              rw [hscored] at hr3
              rcases List.mem_map.mp hr3 with ⟨cd, hcd, hcdr⟩
              have hcont := (List.mem_filter.mp hcd).2
              have huri : r.spotify_uri = cd.spotify_uri := by
                rw [← hcdr]
              intro habs
              rw [huri] at habs
              simp at hcont
              exact hcont habs

/-- The sort leaves an already comparator-sorted pool unchanged. -/
theorem sortRanked_of_pairwise (l : List RankedSong)
    (h : l.Pairwise (fun a b => rankedLE a b = true)) :
    sortRanked l = l :=
  List.mergeSort_of_sorted h

/-- Feature vector shared by the concrete witness scenarios. -/
noncomputable def fW : AudioFeatures := ⟨120, 1 / 2, 1 / 2, 1 / 2⟩

/-- Oracle of the pinned-entry witness scenarios: every title resolves
to `fW`. -/
noncomputable def foW : String → Option AudioFeatures := fun _ => some fW

/-- Centroid of the two-reference witness scenarios. -/
noncomputable def cW : AudioFeatures := computeCentroid [fW, fW]

/-- Weights of the two-reference witness scenarios. -/
noncomputable def wW : Weights := computeDynamicWeights [fW, fW]

/-- The one distance value occurring in the witness scenarios. -/
noncomputable def dW : ℝ := distance fW cW wW

/-- Queue of the pinned/duplicate witness scenario: two entries share
the currently-playing URI, three further entries fill the pool. -/
def entryP1 : QueueEntry := ⟨"idP1", "uri:p", "tP1", "aP1", 0⟩

/-- Second entry with the currently-playing URI. -/
def entryP2 : QueueEntry := ⟨"idP2", "uri:p", "tP2", "aP2", 1⟩

/-- First pool entry. -/
def entryA : QueueEntry := ⟨"idA", "uri:a", "tA", "aA", 2⟩

/-- Second pool entry. -/
def entryB : QueueEntry := ⟨"idB", "uri:b", "tB", "aB", 3⟩

/-- Third pool entry. -/
def entryC : QueueEntry := ⟨"idC", "uri:c", "tC", "aC", 4⟩

/-- The duplicate-URI witness queue. -/
def qDup : List QueueEntry :=
  [entryP1, entryP2, entryA, entryB, entryC]

/-- The sorted pool of the duplicate-URI witness scenario. -/
noncomputable def sortedDup : List RankedSong :=
  [⟨entryA, some fW, some dW⟩, ⟨entryB, some fW, some dW⟩,
    ⟨entryC, some fW, some dW⟩]

/-- Concrete evaluation of rerank on the duplicate-URI witness queue:
the first URI match is pinned at 0, both matches leave the pool, and
the three pool songs (all at the same distance `dW`) keep their order
and receive positions 1–3. -/
theorem rerank_eval_dup :
    rerank (Except.ok qDup) (some "uri:p") foW =
      RerankResult.ranked (some entryP1) cW wW sortedDup
        [("idP1", 0), ("idA", 1), ("idB", 2), ("idC", 3)] := by
  have hsplit : splitPlaying qDup (some "uri:p") =
      (some entryP1, [entryA, entryB, entryC]) := by decide
  have hpair : sortedDup.Pairwise (fun a b => rankedLE a b = true) := by
    simp [sortedDup, rankedLE, distLE]
  simp only [rerank, qDup] at hsplit ⊢
  rw [hsplit]
  simp only [List.length_cons, List.length_nil]
  rw [if_neg (by omega)]
  have htake :
      ([entryA, entryB, entryC].take (min 2 (2 + 1 - 1))) =
        [entryA, entryB] := by decide
  rw [htake]
  simp only [foW, List.filterMap_cons, List.filterMap_nil]
  have hbuild : buildRanked [entryA, entryB, entryC]
      (fun _ => some fW) cW wW = sortedDup := by
    simp [buildRanked, sortedDup, dW]
  rw [show (fun (_ : String) => some fW) = foW from rfl] at hbuild
  rw [show computeCentroid [fW, fW] = cW from rfl,
    show computeDynamicWeights [fW, fW] = wW from rfl, hbuild,
    sortRanked_of_pairwise sortedDup hpair]
  rfl

/-- Witness for C1 on the duplicate-URI scenario: the pinned entry is
written position 0 first, and the position column of the writes is
exactly `0, 1, 2, 3`. -/
theorem rerank_positions_witness :
    ([("idP1", 0), ("idA", 1), ("idB", 2), ("idC", 3)] :
        List (String × ℕ)).head? = some (entryP1.id, 0) ∧
    ([("idP1", 0), ("idA", 1), ("idB", 2), ("idC", 3)] :
        List (String × ℕ)).map Prod.snd =
      List.range ([("idP1", 0), ("idA", 1), ("idB", 2), ("idC", 3)] :
        List (String × ℕ)).length := by
  have h := rerank_positions qDup (some "uri:p") foW (some entryP1) cW wW
    sortedDup [("idP1", 0), ("idA", 1), ("idB", 2), ("idC", 3)]
    rerank_eval_dup
  exact ⟨h.1 entryP1 rfl, h.2.1⟩

/-- Witness for C10 on the duplicate-URI scenario: the second entry
carrying the playing URI gets no write and a store is unchanged at its
row. -/
theorem rerank_duplicate_playing_witness :
    entryP2.id ∉ ([("idP1", 0), ("idA", 1), ("idB", 2), ("idC", 3)] :
        List (String × ℕ)).map Prod.fst ∧
    applyWrites (fun _ => (7 : Int))
      [("idP1", 0), ("idA", 1), ("idB", 2), ("idC", 3)] entryP2.id = 7 := by
  have h := rerank_duplicate_playing qDup "uri:p" foW entryP1 (some entryP1)
    cW wW sortedDup [("idP1", 0), ("idA", 1), ("idB", 2), ("idC", 3)]
    (by decide) rerank_eval_dup (by decide) entryP2 (by decide) (by decide)
    (by decide)
  exact ⟨h.2.2.1, h.2.2.2 (fun _ => (7 : Int))⟩

/-- Entry of the mixed witness scenario whose features do not
resolve. -/
def entryD : QueueEntry := ⟨"idD", "uri:d", "tD", "aD", 5⟩

/-- Queue of the mixed witness scenario: three resolvable songs and an
unresolvable one, no currently-playing URI. -/
def qMix : List QueueEntry := [entryA, entryB, entryC, entryD]

/-- Oracle of the mixed witness scenario: every title resolves to `fW`
except `entryD`'s. -/
noncomputable def foW3 : String → Option AudioFeatures :=
  fun title => if title = "tD" then none else some fW

/-- The built (and, as it happens, already sorted) pool of the mixed
witness scenario: the unresolvable song carries the sentinel. -/
noncomputable def rankedMix : List RankedSong :=
  [⟨entryA, some fW, some dW⟩, ⟨entryB, some fW, some dW⟩,
    ⟨entryC, some fW, some dW⟩, ⟨entryD, none, none⟩]

/-- Concrete evaluation of rerank on the mixed witness queue. -/
theorem rerank_eval_mix :
    rerank (Except.ok qMix) none foW3 =
      RerankResult.ranked none cW wW rankedMix
        [("idA", 0), ("idB", 1), ("idC", 2), ("idD", 3)] := by
  have hfA : foW3 entryA.song_title = some fW := by simp [foW3, entryA]
  have hfB : foW3 entryB.song_title = some fW := by simp [foW3, entryB]
  have hfC : foW3 entryC.song_title = some fW := by simp [foW3, entryC]
  have hfD : foW3 entryD.song_title = none := by simp [foW3, entryD]
  have hpair : rankedMix.Pairwise (fun a b => rankedLE a b = true) := by
    simp [rankedMix, rankedLE, distLE]
  simp only [rerank, qMix, splitPlaying]
  simp only [List.length_cons, List.length_nil]
  rw [if_neg (by omega)]
  have htake :
      ([entryA, entryB, entryC, entryD].take (min 2 (3 + 1 - 1))) =
        [entryA, entryB] := by decide
  rw [htake]
  simp only [List.filterMap_cons, List.filterMap_nil, hfA, hfB]
  have hbuild : buildRanked [entryA, entryB, entryC, entryD] foW3 cW wW =
      rankedMix := by
    simp [buildRanked, rankedMix, dW, hfA, hfB, hfC, hfD]
  rw [show computeCentroid [fW, fW] = cW from rfl,
    show computeDynamicWeights [fW, fW] = wW from rfl, hbuild,
    sortRanked_of_pairwise rankedMix hpair]
  rfl

/-- Witness for C3 on the mixed scenario: the sentinel entries of the
sorted pool are exactly those of the pre-sort pool, in order. -/
theorem rerank_unresolved_stable_witness :
    rankedMix.filter (fun r => r.dist.isNone) =
      (buildRanked (splitPlaying qMix none).2 foW3 cW wW).filter
        (fun r => r.dist.isNone) :=
  (rerank_unresolved_stable qMix none foW3 none cW wW rankedMix
    [("idA", 0), ("idB", 1), ("idC", 2), ("idD", 3)] rerank_eval_mix).2.2.1

/-- Played-history row of the recommendation witness scenario. -/
def pSeed : PlayedSong := ⟨"uri:seed", "tSeed"⟩

/-- The one candidate of the recommendation witness scenario; its URI
is not in the exclusion set. -/
noncomputable def candKeep : Candidate :=
  ⟨"c1", "cand", none, "uri:kept", 120, 1 / 2, 1 / 2, 1 / 2⟩

/-- The scored candidate recommend returns in the witness scenario. -/
noncomputable def rcKeep : RankedCandidate :=
  { id := "c1", track_name := "cand", artists := "Unknown"
    spotify_uri := "uri:kept", tempo := 120, energy := 1 / 2
    danceability := 1 / 2, valence := 1 / 2
    dist :=
      distance candKeep.features (computeCentroid [fW])
        (computeDynamicWeights [fW]) }

/-- Concrete evaluation of recommend in the witness scenario: the one
candidate survives the exclusion filter and is returned. -/
theorem recommend_eval_keep :
    recommend (Except.ok [pSeed]) foW (Except.ok ["uri:x"])
        (Except.ok [candKeep]) 5 = RecResult.ok [rcKeep] := by
  simp only [recommend, foW, List.filterMap_cons, List.filterMap_nil]
  have hcont : ((["uri:x"] : List String).contains
      candKeep.spotify_uri) = false := by decide
  simp [hcont, rcKeep, List.mergeSort_singleton, candKeep]

/-- Witness for C7: the returned recommendation's URI is outside the
exclusion set. -/
theorem recommend_excludes_seen_witness :
    rcKeep.spotify_uri ∉ (["uri:x"] : List String) := by
  refine recommend_excludes_seen (Except.ok [pSeed]) foW ["uri:x"]
    (Except.ok [candKeep]) 5 rcKeep ?_
  rw [recommend_eval_keep]
  simp [recResponse]

end Revel
